import Mathlib

set_option autoImplicit false

/-!
Shallow embedding of `src/service/models.py` (promotions service).

Modelling conventions:
* The SQLAlchemy record store is modelled as a `List Promotion`; `query.filter`
  becomes `List.filter`, and query results keep store order.
* `datetime` values are modelled as integer timestamps (`Int`);
  `datetime.now()` is passed in explicitly as a parameter `now`, one sample per
  query invocation.
* `datetime.isoformat` / `datetime.fromisoformat` are modelled by an injective
  decimal rendering of the timestamp together with its partial inverse parser;
  what matters for the claims is that `fromisoformat` is a partial function that
  fails (Python: raises `ValueError`) exactly on strings outside the codec's
  image, and that it inverts `isoformat`.
* Python's dynamically typed dictionary values are modelled by the `Value` type;
  a request body that may not be a dictionary is a `Body`.
* Exceptions are modelled with `Except`; the Python exception classes relevant
  to `deserialize` (`KeyError`, `AttributeError`, `TypeError`, `ValueError`)
  are the constructors of `PyExc`.
* Benefit arithmetic in `find_best_promotion_for_product` (Python floats) is
  modelled over `ℚ`; Python's `ZeroDivisionError` and `UnboundLocalError` are
  modelled explicitly as error outcomes of the selector.
-/

/-- The `TypeOfPromo` enum from the source. The source assigns the non-contiguous
numeric values 0, 1, 3; no code under test reads those numbers, so the tag set
is kept opaque. -/
inductive TypeOfPromo where
  | Discount
  | BOGOF
  | Unknown
deriving DecidableEq

/-- Python's `enum_member.name`. -/
def TypeOfPromo.name : TypeOfPromo → String
  | .Discount => "Discount"
  | .BOGOF => "BOGOF"
  | .Unknown => "Unknown"

/-- Character for one decimal digit. -/
def digitChar (k : Nat) : Char := Char.ofNat (48 + k)

/-- Partial inverse of `digitChar`. -/
def digitVal (c : Char) : Option Nat :=
  if 48 ≤ c.toNat ∧ c.toNat ≤ 57 then some (c.toNat - 48) else none

/-- Digit characters of a natural number, least significant first. -/
def natChars (n : Nat) : List Char := (Nat.digits 10 n).map digitChar

/-- Model of `datetime.isoformat`: an injective textual rendering of the
timestamp (digits least-significant first, `-` sign for negatives). Always a
nonempty string, as real `isoformat` output is. -/
def isoformat (d : Int) : String :=
  if d = 0 then "0"
  else if d < 0 then ⟨'-' :: natChars d.natAbs⟩
  else ⟨natChars d.natAbs⟩

/-- Parse a list of digit characters. -/
def parseDigits : List Char → Option (List Nat)
  | [] => some []
  | c :: cs =>
    match digitVal c, parseDigits cs with
    | some k, some ks => some (k :: ks)
    | _, _ => none

/-- Character-level worker for `fromisoformat`: an optional sign followed by a
nonempty digit string. -/
def parseSigned : List Char → Option Int
  | [] => none
  | c :: cs =>
    if c = '-' then
      if cs.isEmpty then none
      else (parseDigits cs).map (fun ds => -(((Nat.ofDigits 10 ds : Nat)) : Int))
    else (parseDigits (c :: cs)).map (fun ds => (((Nat.ofDigits 10 ds : Nat)) : Int))

/-- Model of `datetime.fromisoformat`: partial inverse of `isoformat`.
`none` models Python raising `ValueError` on a malformed string. -/
def fromisoformat (s : String) : Option Int := parseSigned s.data

/-- Python exception classes that `Promotion.deserialize` can encounter. -/
inductive PyExc where
  | keyError (k : String)
  | attributeError (a : String)
  | typeError
  | valueError (s : String)
deriving DecidableEq

/-- A dynamically typed Python value, as stored in a request dictionary or in a
not-yet-validated attribute slot. -/
inductive Value where
  | vnone
  | vstr (s : String)
  | vint (n : Int)
  | vdt (d : Int)
  | venum (c : TypeOfPromo)
deriving DecidableEq

/-- Python truthiness of a `Value`. -/
def Value.truthy : Value → Bool
  | .vnone => false
  | .vstr s => s != ""
  | .vint n => n != 0
  | .vdt _ => true
  | .venum _ => true

/-- A request body: either a dictionary or some non-subscriptable value. -/
inductive Body where
  | bdict (entries : List (String × Value))
  | nondict (v : Value)
deriving DecidableEq

/-- Python `data[key]`: `KeyError` on a missing key, `TypeError` when the body
is not subscriptable. -/
def Body.subscript : Body → String → Except PyExc Value
  | .bdict es, k =>
    match es.lookup k with
    | some v => .ok v
    | none => .error (.keyError k)
  | .nondict _, _ => .error .typeError

/-- Python `getattr(TypeOfPromo, v)`: the enum member for a member name,
`AttributeError` for an unknown string, `TypeError` for a non-string. -/
def getattrTypeOfPromo : Value → Except PyExc Value
  | .vstr ("Discount") => .ok (.venum .Discount)
  | .vstr ("BOGOF") => .ok (.venum .BOGOF)
  | .vstr ("Unknown") => .ok (.venum .Unknown)
  | .vstr s => .error (.attributeError s)
  | _ => .error .typeError

/-- Applying `datetime.fromisoformat` to a string value: `ValueError` escapes on
a malformed string. -/
def fromisoformatV (s : String) : Except PyExc Value :=
  match fromisoformat s with
  | some d => .ok (.vdt d)
  | none => .error (.valueError s)

/-- The attribute slots of a `Promotion` object as raw Python values: this is
what `deserialize` assigns into, with no type checking at assignment time. -/
structure RawPromotion where
  id : Value
  product_name : Value
  category : Value
  product_id : Value
  amount : Value
  description : Value
  from_date : Value
  to_date : Value
deriving DecidableEq

/-- The typed promotion record (the table schema of the source): this is the
shape every persisted record has, and the input shape of `serialize`. -/
structure Promotion where
  id : Option Int
  product_name : String
  category : TypeOfPromo
  product_id : Int
  amount : Int
  description : Option String
  from_date : Int
  to_date : Int
deriving DecidableEq

def optStrValue : Option String → Value
  | none => .vnone
  | some s => .vstr s

def optIntValue : Option Int → Value
  | none => .vnone
  | some n => .vint n

/-- Source `Promotion.serialize`: emits the dictionary with `id`,
`product_name`, `category` (member name), `product_id`, `amount`,
`description`, and the two dates as `isoformat` strings. -/
def Promotion.serialize (p : Promotion) : Body :=
  .bdict [("id", optIntValue p.id),
          ("product_name", .vstr p.product_name),
          ("category", .vstr p.category.name),
          ("product_id", .vint p.product_id),
          ("amount", .vint p.amount),
          ("description", optStrValue p.description),
          ("from_date", .vstr (isoformat p.from_date)),
          ("to_date", .vstr (isoformat p.to_date))]

/-- The `try` body of `Promotion.deserialize`, in source order: subscript and
assign `product_name`; look the category name up with `getattr`; subscript
`product_id`, `amount`, `description`; for each date, parse it with
`fromisoformat` when it is a truthy string, otherwise pass the raw value
through. Never touches `id`. -/
def Promotion.deserializeBody (data : Body) (self : RawPromotion) :
    Except PyExc RawPromotion := do
  let pn ← data.subscript ("product_name")
  let catV ← data.subscript ("category")
  let cat ← getattrTypeOfPromo catV
  let pid ← data.subscript ("product_id")
  let amt ← data.subscript ("amount")
  let desc ← data.subscript ("description")
  let fdRaw ← data.subscript ("from_date")
  let fd ← match fdRaw with
    | .vstr s => if s != "" then fromisoformatV s else pure (.vstr s)
    | v => pure v
  let tdRaw ← data.subscript ("to_date")
  let td ← match tdRaw with
    | .vstr s => if s != "" then fromisoformatV s else pure (.vstr s)
    | v => pure v
  pure { self with product_name := pn, category := cat, product_id := pid,
                   amount := amt, description := desc, from_date := fd,
                   to_date := td }

/-- Outcome of a call to `deserialize`: either the `DataValidationError` the
method raises itself, or a Python exception that escapes its handlers. -/
inductive DeserOutcome where
  | validation (msg : String)
  | uncaught (e : PyExc)
deriving DecidableEq

/-- Source `Promotion.deserialize`: runs the body and maps
`KeyError`, `AttributeError` and `TypeError` to `DataValidationError` messages
exactly as the three `except` clauses do. Any other exception — in particular
the `ValueError` that `datetime.fromisoformat` raises on a malformed string —
is caught by no clause and escapes. -/
def Promotion.deserialize (data : Body) (self : RawPromotion) :
    Except DeserOutcome RawPromotion :=
  match Promotion.deserializeBody data self with
  | .ok r => .ok r
  | .error (.keyError k) =>
    .error (.validation ("Invalid Promotion: missing " ++ k))
  | .error (.attributeError a) =>
    .error (.validation ("Invalid attribute: " ++ a))
  | .error .typeError =>
    .error (.validation ("Invalid Promotion: body of request contained bad or no data"))
  | .error (.valueError s) => .error (.uncaught (.valueError s))

/-- Store-generated next primary key: one more than the largest id present
(the exact allocation strategy is the store's concern; any fresh value works
for the claims). -/
def nextId (store : List Promotion) : Int :=
  (store.foldr (fun r m => max m ((r.id).getD 0)) 0) + 1

/-- Result of a call to `Promotion.create`: the in-memory entity after the
call, the store after the call, and the `DataValidationError` message when one
was raised. -/
structure CreateResult where
  entity : Promotion
  store : List Promotion
  err : Option String
deriving DecidableEq

/-- Source `Promotion.create`: first sets `self.id = None`, then
raises if `category == Discount and amount > 100`, then raises if
`amount <= 0`, and otherwise inserts the record (with a store-assigned id)
into the store. -/
def Promotion.create (p : Promotion) (store : List Promotion) : CreateResult :=
  let p1 : Promotion := { p with id := none }
  if p1.category = TypeOfPromo.Discount ∧ 100 < p1.amount then
    { entity := p1, store := store, err := some ("Discount cannot exceed 100%") }
  else if p1.amount ≤ 0 then
    { entity := p1, store := store, err := some ("amount must be grater than 0") }
  else
    let p2 : Promotion := { p1 with id := some (nextId store) }
    { entity := p2, store := store ++ [p2], err := none }

/-- Model of `db.session.commit()` with `self` already mutated in the session: the
stored row with `self`'s identity takes `self`'s current field values. -/
def replaceById (store : List Promotion) (p : Promotion) : List Promotion :=
  store.map (fun r => if r.id = p.id then p else r)

/-- Source `Promotion.update`: just commits; no validation of any
kind runs. The error type is the same `DataValidationError` channel as
`create`, to state that no such error can occur. -/
def Promotion.update (p : Promotion) (store : List Promotion) :
    Except String (List Promotion) :=
  .ok (replaceById store p)

/-- Source `Promotion.delete`: removes the record by identity. -/
def Promotion.delete (p : Promotion) (store : List Promotion) : List Promotion :=
  store.filter (fun r => decide (r.id ≠ p.id))

/-- Source `Promotion.is_available`:
`from_date <= now and to_date >= now`. -/
def Promotion.is_available (p : Promotion) (now : Int) : Bool :=
  decide (p.from_date ≤ now) && decide (p.to_date ≥ now)

/-- Source `Promotion.find_by_availability`: for `available=True`,
filter `from_date <= now` then `to_date >= now`; for `available=False`,
filter `from_date > now OR to_date < now`. -/
def Promotion.find_by_availability (store : List Promotion) (now : Int)
    (available : Bool) : List Promotion :=
  if available then
    (store.filter (fun r => decide (r.from_date ≤ now))).filter
      (fun r => decide (r.to_date ≥ now))
  else
    store.filter (fun r => decide (r.from_date > now) || decide (r.to_date < now))

/-- Errors the Python selector loop can raise: reading the local `off` before
any branch assigned it (`UnboundLocalError`), or `1. / promotion.amount` with
a zero amount (`ZeroDivisionError`). -/
inductive SelErr where
  | unboundLocal
  | zeroDivision
deriving DecidableEq

/-- One iteration's effect on the local variable `off`. The source assigns
`off` only in the `Discount` and `BOGOF` branches; for any other category the
local keeps whatever value (possibly none) it had from earlier iterations. -/
def offStep (c : Promotion) (off : Option ℚ) : Except SelErr (Option ℚ) :=
  match c.category with
  | .Discount => .ok (some ((c.amount : ℚ) / 100))
  | .BOGOF =>
    if c.amount = 0 then .error .zeroDivision
    else .ok (some (1 / (c.amount : ℚ)))
  | .Unknown => .ok off

/-- The selection loop of `find_best_promotion_for_product`, with the local
`off` modelled as `Option ℚ` (`none` = never assigned): compute `off`, then
compare `off > max_off`; the comparison with an unassigned `off` is Python's
`UnboundLocalError`. -/
def findBestLoop : List Promotion → Option ℚ → ℚ → Option Promotion →
    Except SelErr (Option Promotion)
  | [], _, _, best => .ok best
  | c :: rest, off, maxOff, best =>
    match offStep c off with
    | .error e => .error e
    | .ok none => .error .unboundLocal
    | .ok (some v) =>
      if maxOff < v then findBestLoop rest (some v) v (some c)
      else findBestLoop rest (some v) maxOff best

/-- The candidate filter of `find_best_promotion_for_product`:
`product_id` matches and `from_date <= now <= to_date`. -/
def activeForProduct (product_id : Int) (now : Int) (r : Promotion) : Bool :=
  decide (r.product_id = product_id) && decide (r.from_date ≤ now) &&
    decide (r.to_date ≥ now)

/-- Source `Promotion.find_best_promotion_for_product`: filter the
active candidates for the product, then run the selection loop with
`max_off = 0`, `best_promotion = None`, and `off` unassigned. -/
def Promotion.find_best_promotion_for_product (store : List Promotion)
    (product_id : Int) (now : Int) : Except SelErr (Option Promotion) :=
  findBestLoop (store.filter (activeForProduct product_id now)) none 0 none

/-- The category criterion of the combined finder: the caller may pass the
enum value or a string. -/
inductive CatArg where
  | byEnum (c : TypeOfPromo)
  | byStr (s : String)
deriving DecidableEq

/-- Model of `category.split('.')[-1]`. -/
def lastComponent (s : String) : String := (s.splitOn (".")).getLastD s

/-- Python `TypeOfPromo[name]`: enum member lookup by name; `none` models the
`KeyError` Python raises for an unknown name. -/
def memberByName (s : String) : Option TypeOfPromo :=
  if s = "Discount" then some TypeOfPromo.Discount
  else if s = "BOGOF" then some TypeOfPromo.BOGOF
  else if s = "Unknown" then some TypeOfPromo.Unknown
  else none

/-- Resolution of the category criterion as the source performs it: a string
is stripped of any qualifying components before the member lookup. -/
def resolveCatArg : CatArg → Option TypeOfPromo
  | .byEnum c => some c
  | .byStr s => memberByName (lastComponent s)

/-- The sparse criteria accepted by `find_by_multi_attributes`. A key absent
from `args` and a key present with value `None` behave identically in the
source (`"k" in args and args["k"] is not None`), so both are `none` here. -/
structure MultiArgs where
  category : Option CatArg
  product_name : Option String
  product_id : Option Int
  from_date : Option Int
  to_date : Option Int
  available : Option Int
deriving DecidableEq

def filterName (o : Option String) (l : List Promotion) : List Promotion :=
  match o with
  | none => l
  | some s => l.filter (fun p => decide (p.product_name = s))

def filterPid (o : Option Int) (l : List Promotion) : List Promotion :=
  match o with
  | none => l
  | some n => l.filter (fun p => decide (p.product_id = n))

def filterFromDate (o : Option Int) (l : List Promotion) : List Promotion :=
  match o with
  | none => l
  | some d => l.filter (fun p => decide (p.from_date = d))

def filterToDate (o : Option Int) (l : List Promotion) : List Promotion :=
  match o with
  | none => l
  | some d => l.filter (fun p => decide (p.to_date = d))

/-- The `available` clause of the combined finder, as the source writes it:
`int(args["available"]) > 0` selects the active window filters, anything else
selects `from_date > now OR now > to_date`. -/
def filterAvail (o : Option Int) (now : Int) (l : List Promotion) :
    List Promotion :=
  match o with
  | none => l
  | some a =>
    if 0 < a then
      (l.filter (fun p => decide (p.from_date ≤ now))).filter
        (fun p => decide (p.to_date ≥ now))
    else
      l.filter (fun p => decide (p.from_date > now) || decide (now > p.to_date))

def filterCat (o : Option TypeOfPromo) (l : List Promotion) : List Promotion :=
  match o with
  | none => l
  | some c => l.filter (fun p => decide (p.category = c))

/-- Source `Promotion.find_by_multi_attributes`: apply the category,
product_name, product_id, from_date, to_date and available filters in source
order, each only when its criterion is supplied; a category string whose
member lookup fails raises `KeyError`. -/
def Promotion.find_by_multi_attributes (store : List Promotion) (now : Int)
    (args : MultiArgs) : Except String (List Promotion) :=
  match args.category with
  | some ca =>
    match resolveCatArg ca with
    | none => .error ("KeyError")
    | some c =>
      .ok (filterAvail args.available now (filterToDate args.to_date
        (filterFromDate args.from_date (filterPid args.product_id
          (filterName args.product_name (filterCat (some c) store))))))
  | none =>
    .ok (filterAvail args.available now (filterToDate args.to_date
      (filterFromDate args.from_date (filterPid args.product_id
        (filterName args.product_name store)))))

/-! ### Codec lemmas: `fromisoformat` inverts `isoformat` -/

theorem digitVal_digitChar (k : Nat) (h : k < 10) :
    digitVal (digitChar k) = some k := by
  interval_cases k <;> rfl

theorem digitChar_ne_dash (k : Nat) (h : k < 10) : digitChar k ≠ '-' := by
  interval_cases k <;> decide

theorem parseDigits_map_digitChar (l : List Nat) (h : ∀ k ∈ l, k < 10) :
    parseDigits (l.map digitChar) = some l := by
  induction l with
  | nil => rfl
  | cons k t ih =>
    simp only [List.map_cons, parseDigits]
    rw [digitVal_digitChar k (h k (by simp)), ih (fun x hx => h x (by simp [hx]))]

theorem natChars_digits_lt (n : Nat) : ∀ k ∈ Nat.digits 10 n, k < 10 :=
  fun _ hk => Nat.digits_lt_base (by norm_num) hk

theorem parseDigits_natChars (n : Nat) :
    parseDigits (natChars n) = some (Nat.digits 10 n) :=
  parseDigits_map_digitChar _ (natChars_digits_lt n)

theorem fromisoformat_isoformat (d : Int) :
    fromisoformat (isoformat d) = some d := by
  by_cases h0 : d = 0
  · subst h0
    decide
  · have hne : d.natAbs ≠ 0 := by omega
    have hdig : Nat.digits 10 d.natAbs ≠ [] := Nat.digits_ne_nil_iff_ne_zero.mpr hne
    by_cases hneg : d < 0
    · rw [isoformat, if_neg h0, if_pos hneg]
      show parseSigned ('-' :: natChars d.natAbs) = some d
      have hempty : (natChars d.natAbs).isEmpty = false := by
        rw [natChars]
        cases hc : Nat.digits 10 d.natAbs with
        | nil => exact absurd hc hdig
        | cons a t => rfl
      simp only [parseSigned, if_pos rfl, ite_true, hempty, Bool.false_eq_true,
        if_false, parseDigits_natChars, Option.map_some', Nat.ofDigits_digits]
      congr 1
      have habs : ((d.natAbs : Nat) : Int) = -d := by
        rw [← Int.natAbs_neg]
        exact Int.natAbs_of_nonneg (by omega)
      omega
    · obtain ⟨k, rest, hcons⟩ : ∃ k rest, Nat.digits 10 d.natAbs = k :: rest := by
        cases hc : Nat.digits 10 d.natAbs with
        | nil => exact absurd hc hdig
        | cons a t => exact ⟨a, t, rfl⟩
      have hk10 : k < 10 := natChars_digits_lt d.natAbs k (by rw [hcons]; simp)
      rw [isoformat, if_neg h0, if_neg hneg]
      show parseSigned (natChars d.natAbs) = some d
      rw [natChars, hcons, List.map_cons]
      simp only [parseSigned, if_neg (digitChar_ne_dash k hk10)]
      rw [show digitChar k :: List.map digitChar rest = (k :: rest).map digitChar from rfl]
      rw [parseDigits_map_digitChar (k :: rest)
        (by rw [← hcons]; exact natChars_digits_lt d.natAbs)]
      rw [Option.map_some', ← hcons, Nat.ofDigits_digits]
      congr 1
      omega

theorem isoformat_ne_empty (d : Int) : isoformat d ≠ "" := by
  by_cases h0 : d = 0
  · subst h0
    decide
  · have hdig : Nat.digits 10 d.natAbs ≠ [] :=
      Nat.digits_ne_nil_iff_ne_zero.mpr (by omega)
    by_cases hneg : d < 0
    · rw [isoformat, if_neg h0, if_pos hneg]
      intro h
      exact absurd (congrArg String.data h) (by simp)
    · rw [isoformat, if_neg h0, if_neg hneg]
      intro h
      have hdata := congrArg String.data h
      simp only [natChars] at hdata
      cases hc : Nat.digits 10 d.natAbs with
      | nil => exact absurd hc hdig
      | cons a t => rw [hc] at hdata; simp at hdata

theorem isoformat_bne_empty (d : Int) : (isoformat d != "") = true := by
  simp [bne_iff_ne, isoformat_ne_empty d]

theorem fromisoformatV_isoformat (d : Int) :
    fromisoformatV (isoformat d) = .ok (.vdt d) := by
  rw [fromisoformatV, fromisoformat_isoformat]

/-! ### Concrete fixtures used by witnesses and counterexamples -/

def promoD30 : Promotion :=
  { id := some 1, product_name := "apple", category := .Discount, product_id := 7,
    amount := 30, description := none, from_date := 0, to_date := 10 }

def promoB4 : Promotion :=
  { id := some 2, product_name := "apple", category := .BOGOF, product_id := 7,
    amount := 4, description := none, from_date := 0, to_date := 10 }

def promoD50 : Promotion :=
  { id := some 3, product_name := "pear", category := .Discount, product_id := 7,
    amount := 50, description := none, from_date := 0, to_date := 10 }

def promoU : Promotion :=
  { id := some 4, product_name := "plum", category := .Unknown, product_id := 7,
    amount := 2, description := none, from_date := 0, to_date := 10 }

def promoExpired : Promotion :=
  { id := some 5, product_name := "kiwi", category := .Discount, product_id := 7,
    amount := 20, description := none, from_date := 0, to_date := 3 }

def promoInvalid : Promotion :=
  { id := some 6, product_name := "figs", category := .BOGOF, product_id := 8,
    amount := 0, description := none, from_date := 0, to_date := 10 }

/-! ### Round trip: deserialize after serialize -/

/-- The attribute state reached when deserializing a serialized `p` over prior
state `self`: every field of `p` is reproduced and `id` keeps `self`'s value. -/
def roundtripState (p : Promotion) (self : RawPromotion) : RawPromotion :=
  { self with
    product_name := Value.vstr p.product_name,
    category := Value.venum p.category,
    product_id := Value.vint p.product_id,
    amount := Value.vint p.amount,
    description := optStrValue p.description,
    from_date := Value.vdt p.from_date,
    to_date := Value.vdt p.to_date }

theorem deserializeBody_serialize (p : Promotion) (self : RawPromotion) :
    Promotion.deserializeBody (Promotion.serialize p) self =
      .ok (roundtripState p self) := by
  obtain ⟨i, pn, cat, pid, amt, desc, fd, td⟩ := p
  cases cat <;>
    simp [Promotion.deserializeBody, Promotion.serialize, Body.subscript,
      List.lookup, getattrTypeOfPromo, TypeOfPromo.name, isoformat_bne_empty,
      fromisoformatV_isoformat, bind, Except.bind, pure, Except.pure,
      roundtripState]

/-- C4: for every promotion `p` (any category, optional description, any
timestamps) and any prior attribute state `self`, deserializing the record
produced by `serialize p` succeeds and reproduces every field of `p` —
product_name, category, product_id, amount, description, from_date, to_date —
while `id` keeps `self`'s value: it is not carried through as input. -/
theorem c4_roundtrip (p : Promotion) (self : RawPromotion) :
    Promotion.deserialize (Promotion.serialize p) self =
      .ok (roundtripState p self) := by
  unfold Promotion.deserialize
  rw [deserializeBody_serialize]

/-! ### Create, update: validation behavior -/

/-- C2: `create` reports a `DataValidationError` exactly when `amount <= 0` or
the category is `Discount` with `amount > 100`; when neither condition holds it
succeeds and appends the record to the store. -/
theorem c2_create_validation (p : Promotion) (store : List Promotion) :
    ((Promotion.create p store).err.isSome ↔
      p.amount ≤ 0 ∨ (p.category = TypeOfPromo.Discount ∧ 100 < p.amount)) ∧
    ((Promotion.create p store).err = none →
      (Promotion.create p store).store = store ++ [(Promotion.create p store).entity]) := by
  unfold Promotion.create
  by_cases h1 : p.category = TypeOfPromo.Discount ∧ 100 < p.amount
  · simp [h1]
  · by_cases h2 : p.amount ≤ 0
    · simp [h1, h2]
    · simp [h1, h2]

theorem c2_witness :
    ((Promotion.create promoInvalid []).err.isSome ↔
      promoInvalid.amount ≤ 0 ∨
        (promoInvalid.category = TypeOfPromo.Discount ∧ 100 < promoInvalid.amount)) ∧
    ((Promotion.create promoInvalid []).err = none →
      (Promotion.create promoInvalid []).store =
        [] ++ [(Promotion.create promoInvalid []).entity]) :=
  c2_create_validation promoInvalid []

/-- C9: `update` runs no validation whatsoever: for every field state
(including `amount <= 0` or `Discount` with `amount > 100`, since `p` is
universally quantified) it returns success and commits the record as-is into
the store row with the same identity. -/
theorem c9_update_no_validation (p : Promotion) (store : List Promotion) :
    Promotion.update p store = .ok (replaceById store p) := rfl

/-- C10: when `create` raises, the validation happened before the insert, so
the store is unchanged; but `self.id = None` has already run, so the in-memory
entity has its id cleared even on failure. -/
theorem c10_create_atomicity (p : Promotion) (store : List Promotion)
    (h : (Promotion.create p store).err.isSome = true) :
    (Promotion.create p store).store = store ∧
    (Promotion.create p store).entity = { p with id := none } := by
  unfold Promotion.create at h ⊢
  by_cases h1 : p.category = TypeOfPromo.Discount ∧ 100 < p.amount
  · simp [h1]
  · by_cases h2 : p.amount ≤ 0
    · simp [h1, h2]
    · simp [h1, h2] at h

theorem c10_witness :
    ((Promotion.create promoInvalid []).err.isSome = true) ∧
    ((Promotion.create promoInvalid []).store = [] ∧
     (Promotion.create promoInvalid []).entity = { promoInvalid with id := none }) :=
  ⟨by decide, c10_create_atomicity promoInvalid [] (by decide)⟩

/-! ### Availability queries -/

/-- C8: at one fixed sampled `now`, the `available=False` query returns exactly
the records the `available=True` query does not: each record of the store is
returned by exactly one of the two queries. -/
theorem c8_availability_complement (store : List Promotion) (now : Int)
    (r : Promotion) (h : r ∈ store) :
    (r ∈ Promotion.find_by_availability store now false ↔
      ¬ r ∈ Promotion.find_by_availability store now true) ∧
    (r ∈ Promotion.find_by_availability store now true ∨
      r ∈ Promotion.find_by_availability store now false) := by
  simp [Promotion.find_by_availability, List.mem_filter, h]
  omega

theorem c8_witness :
    (promoD30 ∈ [promoD30]) ∧
    ((promoD30 ∈ Promotion.find_by_availability [promoD30] 5 false ↔
      ¬ promoD30 ∈ Promotion.find_by_availability [promoD30] 5 true) ∧
     (promoD30 ∈ Promotion.find_by_availability [promoD30] 5 true ∨
      promoD30 ∈ Promotion.find_by_availability [promoD30] 5 false)) :=
  ⟨by decide, c8_availability_complement [promoD30] 5 promoD30 (by decide)⟩

/-! ### Best-promotion selector -/

/-- Benefit as the spec words it: Discount promotions are worth `amount/100`,
BOGOF promotions `1/amount`; no benefit is assigned to any other category. -/
def claimBenefit (c : Promotion) : Option ℚ :=
  match c.category with
  | .Discount => some ((c.amount : ℚ) / 100)
  | .BOGOF => some (1 / (c.amount : ℚ))
  | .Unknown => none

/-- The selection rule as the spec words it: a running maximum that a
candidate displaces only when its benefit is strictly greater, keeping the
earliest candidate on ties; candidates with no benefit never displace it. -/
def specBestLoop : List Promotion → ℚ → Option Promotion → Option Promotion
  | [], _, best => best
  | c :: rest, maxOff, best =>
    match claimBenefit c with
    | some v =>
      if maxOff < v then specBestLoop rest v (some c)
      else specBestLoop rest maxOff best
    | none => specBestLoop rest maxOff best

/-- Candidate filter as the spec words it: `product_id` matches and
`from_date <= now <= to_date`. -/
def specActiveFor (product_id : Int) (now : Int) (r : Promotion) : Bool :=
  decide (r.product_id = product_id) && decide (r.from_date ≤ now) &&
    decide (now ≤ r.to_date)

/-- Best-promotion selection as the spec words it: maximum initialized to 0,
best initialized to none. -/
def specFindBest (store : List Promotion) (product_id : Int) (now : Int) :
    Option Promotion :=
  specBestLoop (store.filter (specActiveFor product_id now)) 0 none

theorem activeForProduct_eq_spec (product_id : Int) (now : Int) :
    activeForProduct product_id now = specActiveFor product_id now := rfl

theorem findBestLoop_eq_spec (cands : List Promotion) :
    ∀ (off : Option ℚ) (maxOff : ℚ) (best : Option Promotion),
    (∀ c ∈ cands, c.category = TypeOfPromo.Discount ∨
      (c.category = TypeOfPromo.BOGOF ∧ c.amount ≠ 0)) →
    findBestLoop cands off maxOff best = .ok (specBestLoop cands maxOff best) := by
  induction cands with
  | nil =>
    intro off maxOff best h
    rfl
  | cons c rest ih =>
    intro off maxOff best h
    have hrest : ∀ x ∈ rest, x.category = TypeOfPromo.Discount ∨
        (x.category = TypeOfPromo.BOGOF ∧ x.amount ≠ 0) :=
      fun x hx => h x (List.mem_cons_of_mem c hx)
    rcases h c (List.mem_cons_self c rest) with hc | ⟨hc, ha⟩
    · simp only [findBestLoop, offStep, hc, specBestLoop, claimBenefit]
      by_cases hv : maxOff < (c.amount : ℚ) / 100
      · rw [if_pos hv, if_pos hv]
        exact ih _ _ _ hrest
      · rw [if_neg hv, if_neg hv]
        exact ih _ _ _ hrest
    · simp only [findBestLoop, offStep, hc, specBestLoop, claimBenefit, if_neg ha]
      by_cases hv : maxOff < 1 / (c.amount : ℚ)
      · rw [if_pos hv, if_pos hv]
        exact ih _ _ _ hrest
      · rw [if_neg hv, if_neg hv]
        exact ih _ _ _ hrest

/-- C1: whenever every active candidate is a Discount or a BOGOF with nonzero
amount (the categories for which the claim defines a benefit; a zero BOGOF
amount would be a Python `ZeroDivisionError` and an `Unknown` head an
uninitialized read, treated separately), the source selector returns exactly
the selection described by the spec: candidates are the promotions with
matching `product_id` whose window contains `now`, benefits are `amount/100`
for Discount and `1/amount` for BOGOF, the running maximum starts at 0 and is
displaced only by a strictly greater benefit (ties keep the earliest), and the
result is the best candidate or none when no candidate has positive benefit. -/
theorem c1_best_promotion (store : List Promotion) (product_id now : Int)
    (h : ∀ c ∈ store.filter (activeForProduct product_id now),
      c.category = TypeOfPromo.Discount ∨
        (c.category = TypeOfPromo.BOGOF ∧ c.amount ≠ 0)) :
    Promotion.find_best_promotion_for_product store product_id now =
      .ok (specFindBest store product_id now) := by
  unfold Promotion.find_best_promotion_for_product specFindBest
  rw [activeForProduct_eq_spec] at h
  exact findBestLoop_eq_spec _ _ _ _ h

theorem c1_witness :
    (∀ c ∈ [promoD30, promoB4].filter (activeForProduct 7 5),
      c.category = TypeOfPromo.Discount ∨
        (c.category = TypeOfPromo.BOGOF ∧ c.amount ≠ 0)) ∧
    Promotion.find_best_promotion_for_product [promoD30, promoB4] 7 5 =
      .ok (specFindBest [promoD30, promoB4] 7 5) :=
  ⟨by decide, c1_best_promotion [promoD30, promoB4] 7 5 (by decide)⟩

theorem findBestLoop_some_ne_unbound (cands : List Promotion) :
    ∀ (v maxOff : ℚ) (best : Option Promotion),
    findBestLoop cands (some v) maxOff best ≠ .error SelErr.unboundLocal := by
  induction cands with
  | nil =>
    intro v maxOff best
    simp [findBestLoop]
  | cons c rest ih =>
    intro v maxOff best
    cases hc : c.category
    · simp only [findBestLoop, offStep, hc]
      by_cases hv : maxOff < (c.amount : ℚ) / 100
      · rw [if_pos hv]
        exact ih _ _ _
      · rw [if_neg hv]
        exact ih _ _ _
    · by_cases h0 : c.amount = 0
      · simp [findBestLoop, offStep, hc, h0]
      · simp only [findBestLoop, offStep, hc, if_neg h0]
        by_cases hv : maxOff < 1 / (c.amount : ℚ)
        · rw [if_pos hv]
          exact ih _ _ _
        · rw [if_neg hv]
          exact ih _ _ _
    · simp only [findBestLoop, offStep, hc]
      by_cases hv : maxOff < v
      · rw [if_pos hv]
        exact ih _ _ _
      · rw [if_neg hv]
        exact ih _ _ _

/-- C7 (amended): the selector reads the loop local `off` before assignment —
Python's `UnboundLocalError` — exactly when the *first* active candidate has
category `Unknown`. An `Unknown` candidate later in the list is still
considered, but the comparison then reuses the stale `off` value left by an
earlier iteration, which never exceeds the running maximum, so no
uninitialized read and no displacement happen there. -/
theorem c7_amended (store : List Promotion) (product_id now : Int) :
    Promotion.find_best_promotion_for_product store product_id now =
        .error SelErr.unboundLocal ↔
      ∃ c cs, store.filter (activeForProduct product_id now) = c :: cs ∧
        c.category = TypeOfPromo.Unknown := by
  unfold Promotion.find_best_promotion_for_product
  constructor
  · intro h
    cases hl : store.filter (activeForProduct product_id now) with
    | nil =>
      rw [hl] at h
      exact absurd h (by simp [findBestLoop])
    | cons c cs =>
      rw [hl] at h
      cases hc : c.category
      · exfalso
        simp only [findBestLoop, offStep, hc] at h
        by_cases hv : (0 : ℚ) < (c.amount : ℚ) / 100
        · rw [if_pos hv] at h
          exact findBestLoop_some_ne_unbound cs _ _ _ h
        · rw [if_neg hv] at h
          exact findBestLoop_some_ne_unbound cs _ _ _ h
      · exfalso
        by_cases h0 : c.amount = 0
        · simp only [findBestLoop, offStep, hc, if_pos h0] at h
          simp at h
        · simp only [findBestLoop, offStep, hc, if_neg h0] at h
          by_cases hv : (0 : ℚ) < 1 / (c.amount : ℚ)
          · rw [if_pos hv] at h
            exact findBestLoop_some_ne_unbound cs _ _ _ h
          · rw [if_neg hv] at h
            exact findBestLoop_some_ne_unbound cs _ _ _ h
      · exact ⟨c, cs, rfl, hc⟩
  · rintro ⟨c, cs, hl, hc⟩
    rw [hl]
    simp [findBestLoop, offStep, hc]

/-- C7 counterexample: an `Unknown`-category candidate (`promoU`) *is*
considered — it is in the active candidate list — yet the selector neither
reads an uninitialized value nor fails: because a Discount candidate ran
first, the comparison reuses its stale benefit and the call returns normally.
This refutes the claim that the comparison references an uninitialized value
whenever such a candidate is ever considered. -/
theorem c7_counterexample :
    (promoU ∈ [promoD50, promoU].filter (activeForProduct 7 5) ∧
      promoU.category = TypeOfPromo.Unknown) ∧
    Promotion.find_best_promotion_for_product [promoD50, promoU] 7 5 =
      .ok (some promoD50) := by
  refine ⟨⟨by decide, by decide⟩, ?_⟩
  have hfil : [promoD50, promoU].filter (activeForProduct 7 5) =
      [promoD50, promoU] := by decide
  show findBestLoop ([promoD50, promoU].filter (activeForProduct 7 5))
    none 0 none = .ok (some promoD50)
  rw [hfil]
  norm_num [findBestLoop, offStep, promoD50, promoU]

/-! ### Combined finder: membership characterization -/

/-- The availability constraint the `available` criterion imposes, as the
source computes it: `int(available) > 0` selects the active window, anything
else (including negative values) selects its complement. -/
def availCriterion (a : Int) (now : Int) (r : Promotion) : Prop :=
  if 0 < a then r.from_date ≤ now ∧ r.to_date ≥ now
  else r.from_date > now ∨ now > r.to_date

theorem mem_filterCat (o : Option TypeOfPromo) (l : List Promotion) (r : Promotion) :
    r ∈ filterCat o l ↔ r ∈ l ∧ ∀ c, o = some c → r.category = c := by
  cases o <;> simp [filterCat]

theorem mem_filterName (o : Option String) (l : List Promotion) (r : Promotion) :
    r ∈ filterName o l ↔ r ∈ l ∧ ∀ s, o = some s → r.product_name = s := by
  cases o <;> simp [filterName]

theorem mem_filterPid (o : Option Int) (l : List Promotion) (r : Promotion) :
    r ∈ filterPid o l ↔ r ∈ l ∧ ∀ n, o = some n → r.product_id = n := by
  cases o <;> simp [filterPid]

theorem mem_filterFromDate (o : Option Int) (l : List Promotion) (r : Promotion) :
    r ∈ filterFromDate o l ↔ r ∈ l ∧ ∀ d, o = some d → r.from_date = d := by
  cases o <;> simp [filterFromDate]

theorem mem_filterToDate (o : Option Int) (l : List Promotion) (r : Promotion) :
    r ∈ filterToDate o l ↔ r ∈ l ∧ ∀ d, o = some d → r.to_date = d := by
  cases o <;> simp [filterToDate]

theorem mem_filterAvail (o : Option Int) (now : Int) (l : List Promotion)
    (r : Promotion) :
    r ∈ filterAvail o now l ↔ r ∈ l ∧ ∀ a, o = some a → availCriterion a now r := by
  cases o with
  | none => simp [filterAvail]
  | some a =>
    by_cases ha : 0 < a <;>
      simp [filterAvail, availCriterion, ha, List.mem_filter, and_assoc] <;>
      tauto

/-- Conjunction of all supplied criteria as the spec words it: equality on
category (after string resolution), product_name and product_id; *exact
equality* on from_date and to_date (not range bounds); the availability
constraint for the available flag. An omitted (`none`) criterion imposes no
constraint. -/
def specMatches (args : MultiArgs) (now : Int) (r : Promotion) : Prop :=
  (∀ ca, args.category = some ca → ∀ c, resolveCatArg ca = some c → r.category = c) ∧
  (∀ s, args.product_name = some s → r.product_name = s) ∧
  (∀ n, args.product_id = some n → r.product_id = n) ∧
  (∀ d, args.from_date = some d → r.from_date = d) ∧
  (∀ d, args.to_date = some d → r.to_date = d) ∧
  (∀ a, args.available = some a → availCriterion a now r)

theorem multiFind_ok_mem (store : List Promotion) (now : Int) (args : MultiArgs)
    (res : List Promotion)
    (h : Promotion.find_by_multi_attributes store now args = .ok res)
    (r : Promotion) :
    r ∈ res ↔ r ∈ store ∧ specMatches args now r := by
  unfold Promotion.find_by_multi_attributes at h
  split at h
  next ca hca =>
    split at h
    next hrc => exact absurd h (by simp)
    next c hrc =>
      injection h with h
      subst h
      simp [mem_filterAvail, mem_filterToDate, mem_filterFromDate,
        mem_filterPid, mem_filterName, mem_filterCat, specMatches, hca, hrc]
      tauto
  next hca =>
    injection h with h
    subst h
    simp [mem_filterAvail, mem_filterToDate, mem_filterFromDate,
      mem_filterPid, mem_filterName, specMatches, hca]
    tauto

def emptyArgs : MultiArgs :=
  { category := none, product_name := none, product_id := none,
    from_date := none, to_date := none, available := none }

/-- C5: the combined finder returns exactly the records satisfying the
conjunction of all supplied criteria — equality for category/name/product id,
*exact equality* for from_date/to_date, the availability constraint for the
available flag — omitted criteria impose no constraint, and with no criteria
at all every record is returned. -/
theorem c5_multi_conjunction :
    (∀ (store : List Promotion) (now : Int) (args : MultiArgs)
      (res : List Promotion),
      Promotion.find_by_multi_attributes store now args = .ok res →
      ∀ r, r ∈ res ↔ r ∈ store ∧ specMatches args now r) ∧
    (∀ (store : List Promotion) (now : Int),
      Promotion.find_by_multi_attributes store now emptyArgs = .ok store) :=
  ⟨multiFind_ok_mem, fun _ _ => rfl⟩

def argsPid7 : MultiArgs := { emptyArgs with product_id := some 7 }

theorem c5_witness :
    (Promotion.find_by_multi_attributes [promoD30, promoInvalid] 5 argsPid7 =
      .ok [promoD30]) ∧
    (promoD30 ∈ [promoD30] ↔
      promoD30 ∈ [promoD30, promoInvalid] ∧ specMatches argsPid7 5 promoD30) :=
  ⟨by rfl,
    c5_multi_conjunction.1 [promoD30, promoInvalid] 5 argsPid7 [promoD30]
      (by rfl) promoD30⟩

/-! ### The `available` criterion of the combined finder -/

def availOnly (a : Int) : MultiArgs := { emptyArgs with available := some a }

/-- The `available` clause as claim C6 words it: any *non-zero* integer counts
as true. Only this clause differs from the source; compare `filterAvail`. -/
def filterAvailClaim (o : Option Int) (now : Int) (l : List Promotion) :
    List Promotion :=
  match o with
  | none => l
  | some a =>
    if a ≠ 0 then
      (l.filter (fun p => decide (p.from_date ≤ now))).filter
        (fun p => decide (p.to_date ≥ now))
    else
      l.filter (fun p => decide (p.from_date > now) || decide (now > p.to_date))

/-- The combined finder as claim C6 words it: identical to the source except
that the available flag treats every non-zero integer as true. -/
def claimMultiFind (store : List Promotion) (now : Int) (args : MultiArgs) :
    Except String (List Promotion) :=
  match args.category with
  | some ca =>
    match resolveCatArg ca with
    | none => .error ("KeyError")
    | some c =>
      .ok (filterAvailClaim args.available now (filterToDate args.to_date
        (filterFromDate args.from_date (filterPid args.product_id
          (filterName args.product_name (filterCat (some c) store))))))
  | none =>
    .ok (filterAvailClaim args.available now (filterToDate args.to_date
      (filterFromDate args.from_date (filterPid args.product_id
        (filterName args.product_name store)))))

/-- C6 counterexample: with `available = -1` — a non-zero integer, hence
"true" under the claim's reading — the claim-worded finder would demand the
availability predicate and return nothing for an expired promotion, but the
source finder tests `int(available) > 0`, treats `-1` as false, and returns
the expired promotion. -/
theorem c6_counterexample :
    Promotion.find_by_multi_attributes [promoExpired] 5 (availOnly (-1)) =
        .ok [promoExpired] ∧
    claimMultiFind [promoExpired] 5 (availOnly (-1)) = .ok [] := by
  constructor <;> rfl

/-- C6 (amended): when the `available` criterion is present it is read through
`int()` and compared with `> 0`: a *positive* integer selects records whose
window contains `now`, while zero **and every negative integer** select the
complement (`from_date > now` or `now > to_date`); this availability
constraint replaces any date-equality reading of the flag itself and is
conjoined with the other supplied criteria. -/
theorem c6_amended (store : List Promotion) (now a : Int)
    (res : List Promotion)
    (h : Promotion.find_by_multi_attributes store now (availOnly a) = .ok res)
    (r : Promotion) :
    r ∈ res ↔ r ∈ store ∧
      ((0 < a → r.from_date ≤ now ∧ now ≤ r.to_date) ∧
       (a ≤ 0 → (now < r.from_date ∨ r.to_date < now))) := by
  rw [multiFind_ok_mem store now (availOnly a) res h r]
  have hav : specMatches (availOnly a) now r ↔ availCriterion a now r := by
    simp [specMatches, availOnly, emptyArgs]
  rw [hav]
  unfold availCriterion
  by_cases ha : 0 < a
  · rw [if_pos ha]
    exact and_congr_right fun _ => by omega
  · rw [if_neg ha]
    exact and_congr_right fun _ => by omega

theorem c6_witness :
    (Promotion.find_by_multi_attributes [promoExpired] 5 (availOnly (-1)) =
      .ok [promoExpired]) ∧
    (promoExpired ∈ [promoExpired] ↔ promoExpired ∈ [promoExpired] ∧
      ((0 < (-1 : Int) → promoExpired.from_date ≤ 5 ∧ (5 : Int) ≤ promoExpired.to_date) ∧
       ((-1 : Int) ≤ 0 → ((5 : Int) < promoExpired.from_date ∨ promoExpired.to_date < 5)))) :=
  ⟨by rfl, c6_amended [promoExpired] 5 (-1) [promoExpired] (by rfl) promoExpired⟩

/-! ### Deserialize failure modes -/

def blankRaw : RawPromotion :=
  { id := .vnone, product_name := .vnone, category := .vnone,
    product_id := .vnone, amount := .vnone, description := .vnone,
    from_date := .vnone, to_date := .vnone }

/-- A complete, well-typed request dictionary. -/
def completeEntries : List (String × Value) :=
  [("product_name", .vstr ("x")), ("category", .vstr ("Discount")),
   ("product_id", .vint 1), ("amount", .vint 5), ("description", .vnone),
   ("from_date", .vstr ("0")), ("to_date", .vstr ("0"))]

def requiredKeys : List String :=
  ["product_name", "category", "product_id", "amount", "description",
   "from_date", "to_date"]

/-- Like `completeEntries` but with a malformed `from_date` string. -/
def badDateEntries : List (String × Value) :=
  [("product_name", .vstr ("x")), ("category", .vstr ("Discount")),
   ("product_id", .vint 1), ("amount", .vint 5), ("description", .vnone),
   ("from_date", .vstr ("garbage")), ("to_date", .vstr ("0"))]

/-- Like `completeEntries` but with a category name that is no enum member. -/
def bogusCatEntries : List (String × Value) :=
  [("product_name", .vstr ("x")), ("category", .vstr ("Bogus")),
   ("product_id", .vint 1), ("amount", .vint 5), ("description", .vnone),
   ("from_date", .vstr ("0")), ("to_date", .vstr ("0"))]

/-- C3 counterexample: deserializing a dictionary whose `from_date` is a
malformed date string does *not* produce the "bad or no data"
`DataValidationError` the claim requires: `datetime.fromisoformat` raises
`ValueError`, which none of the three `except` clauses (`AttributeError`,
`KeyError`, `TypeError`) catches, so it escapes `deserialize` raw. -/
theorem c3_counterexample :
    Promotion.deserialize (.bdict badDateEntries) blankRaw =
      .error (.uncaught (.valueError ("garbage"))) := by rfl

/-- C3 (amended): a missing required key still yields a `DataValidationError`
naming the key, an unknown category name still yields "Invalid attribute", and
a `TypeError` (e.g. a non-subscriptable body) still yields "bad or no data";
but the outcome trichotomy is: success, a `DataValidationError`, **or an
uncaught `ValueError`** — the latter escaping exactly from date parsing, so
"no other exception kind escapes" holds only once `ValueError` is excepted. -/
theorem c3_amended (data : Body) (self : RawPromotion) :
    ((∃ r, Promotion.deserialize data self = .ok r) ∨
     (∃ msg, Promotion.deserialize data self = .error (.validation msg)) ∨
     (∃ s, Promotion.deserialize data self = .error (.uncaught (.valueError s)))) ∧
    (∀ k ∈ requiredKeys,
      Promotion.deserialize (.bdict (completeEntries.filter (fun e => e.1 ≠ k)))
        blankRaw = .error (.validation ("Invalid Promotion: missing " ++ k))) ∧
    (Promotion.deserialize (.bdict bogusCatEntries) blankRaw =
      .error (.validation ("Invalid attribute: Bogus"))) ∧
    (Promotion.deserialize (.nondict .vnone) blankRaw =
      .error (.validation ("Invalid Promotion: body of request contained bad or no data"))) := by
  refine ⟨?_, ?_, by rfl, by rfl⟩
  · cases hb : Promotion.deserializeBody data self with
    | ok r => exact Or.inl ⟨r, by simp [Promotion.deserialize, hb]⟩
    | error e =>
      cases e with
      | keyError k =>
        exact Or.inr (Or.inl ⟨"Invalid Promotion: missing " ++ k,
          by simp [Promotion.deserialize, hb]⟩)
      | attributeError a =>
        exact Or.inr (Or.inl ⟨"Invalid attribute: " ++ a,
          by simp [Promotion.deserialize, hb]⟩)
      | typeError =>
        exact Or.inr (Or.inl
          ⟨"Invalid Promotion: body of request contained bad or no data",
            by simp [Promotion.deserialize, hb]⟩)
      | valueError s =>
        exact Or.inr (Or.inr ⟨s, by simp [Promotion.deserialize, hb]⟩)
  · intro k hk
    simp only [requiredKeys] at hk
    fin_cases hk <;> rfl

theorem c3_witness :
    ("product_id" ∈ requiredKeys) ∧
    (Promotion.deserialize
      (.bdict (completeEntries.filter (fun e => e.1 ≠ "product_id"))) blankRaw =
      .error (.validation ("Invalid Promotion: missing product_id"))) :=
  ⟨by decide,
    (c3_amended (.bdict completeEntries) blankRaw).2.1 ("product_id") (by decide)⟩
